import Mathlib

/-!
Verification of the flight-log data-entry scripts (add_flight.py and
migrate_csv_to_json.py) against their natural-language specification.

The Python code is shallowly embedded: strings are Lean strings, all
string primitives used by the scripts (str.strip, str.upper, str.lower,
the in operator on characters, float parsing, regular-expression
searches) are modelled as structural recursions over the character list
of the string, Python dicts are association lists in insertion order,
and float values are exact rationals.  Fallible code (a Python call that
can raise) returns an Option, with none modelling an uncaught exception.
-/

/-- Model of the whitespace class stripped by Python str.strip. -/
def pyIsSpace (c : Char) : Bool :=
  c = ' ' || c = '\t' || c = '\n' || c = '\r' || c = '\x0b' || c = '\x0c'

/-- Characters of a string with leading and trailing whitespace removed. -/
def trimChars (cs : List Char) : List Char :=
  ((cs.dropWhile pyIsSpace).reverse.dropWhile pyIsSpace).reverse

/-- Model of Python str.strip with no argument. -/
def pyStrip (s : String) : String :=
  ⟨trimChars s.data⟩

/-- Model of Python str.upper on the ASCII strings handled by the scripts. -/
def pyUpper (s : String) : String :=
  ⟨s.data.map Char.toUpper⟩

/-- Model of Python str.lower on the ASCII strings handled by the scripts. -/
def pyLower (s : String) : String :=
  ⟨s.data.map Char.toLower⟩

/-- Membership of a character in a character list. -/
def hasChar : List Char → Char → Bool
  | [], _ => false
  | c :: t, d => if c = d then true else hasChar t d

/-- Model of the Python expression (c in s) for a one-character needle. -/
def pyContains (s : String) (c : Char) : Bool :=
  hasChar s.data c

/-- Value of a Python dict at a key: the dict is an association list in
insertion order with unique keys, so the first binding decides. -/
def lookupT {α : Type} : List (String × α) → String → Option α
  | [], _ => none
  | (k', v) :: t, k => if k' = k then some v else lookupT t k

/-- Model of the Python dict assignment d[k] = v: replace the binding in
place when the key is present, append otherwise. -/
def dinsert {α : Type} : List (String × α) → String → α → List (String × α)
  | [], k, v => [(k, v)]
  | (k', v') :: t, k, v => if k' = k then (k, v) :: t else (k', v') :: dinsert t k v

/-- Uppercase letter class, the regex class A-Z. -/
def isUpperAZ (c : Char) : Bool :=
  decide ('A' ≤ c ∧ c ≤ 'Z')

/-- Decimal digit class, the regex class 0-9. -/
def isDigit09 (c : Char) : Bool :=
  decide ('0' ≤ c ∧ c ≤ '9')

/-- The regex class A-Z0-9. -/
def isUpperAlnum (c : Char) : Bool :=
  isUpperAZ c || isDigit09 c

/-- Match of the airport pattern at the head of the list: an opening
parenthesis, three uppercase letters, a slash, four uppercase letters and
a closing parenthesis; the capture is the three-letter group. -/
def matchAirportAt : List Char → Option String
  | '(' :: a :: b :: c :: '/' :: d :: e :: f :: g :: ')' :: _ =>
    if isUpperAZ a && isUpperAZ b && isUpperAZ c && isUpperAZ d && isUpperAZ e &&
        isUpperAZ f && isUpperAZ g then
      some ⟨[a, b, c]⟩
    else none
  | _ => none

/-- Leftmost match of the airport pattern, as re.search finds it. -/
def searchAirportCode : List Char → Option String
  | [] => none
  | l@(_ :: t) =>
    match matchAirportAt l with
    | some code => some code
    | none => searchAirportCode t

/-- The airport extraction rule of build_lookups and extract_iata. -/
def extractAirport (s : String) : Option String :=
  searchAirportCode s.data

/-- Match of the airline pattern at the head of the list: an opening
parenthesis, two characters from A-Z0-9, a slash, three uppercase letters
and a closing parenthesis; the capture is the two-character group. -/
def matchAirlineAt : List Char → Option String
  | '(' :: a :: b :: '/' :: c :: d :: e :: ')' :: _ =>
    if isUpperAlnum a && isUpperAlnum b && isUpperAZ c && isUpperAZ d && isUpperAZ e then
      some ⟨[a, b]⟩
    else none
  | _ => none

/-- Leftmost match of the airline pattern. -/
def searchAirlineCode : List Char → Option String
  | [] => none
  | l@(_ :: t) =>
    match matchAirlineAt l with
    | some code => some code
    | none => searchAirlineCode t

/-- The airline extraction rule of build_lookups, applied to field 7. -/
def extractAirline (s : String) : Option String :=
  searchAirlineCode s.data

/-- After an opening parenthesis, read one or more A-Z0-9 characters and
require a closing parenthesis as the very last character of the string,
modelling the end anchor of the aircraft regex. -/
def aircraftTail : List Char → List Char → Option String
  | [')'], acc => if acc.isEmpty then none else some ⟨acc.reverse⟩
  | c :: t, acc => if isUpperAlnum c then aircraftTail t (c :: acc) else none
  | [], _ => none

/-- Match of the aircraft pattern at the head of the list. -/
def matchAircraftAt : List Char → Option String
  | '(' :: rest => aircraftTail rest []
  | _ => none

/-- Leftmost match of the aircraft pattern. -/
def searchAircraftCode : List Char → Option String
  | [] => none
  | l@(_ :: t) =>
    match matchAircraftAt l with
    | some code => some code
    | none => searchAircraftCode t

/-- The aircraft extraction rule of build_lookups: the trailing code
pattern is searched on the stripped field. -/
def extractAircraft (s : String) : Option String :=
  searchAircraftCode (pyStrip s).data

/-- The three auto-complete tables built by build_lookups. -/
structure Lookups where
  airports : List (String × String)
  airlines : List (String × String)
  aircraft : List (String × String)

/-- One table update of build_lookups: search the field with the given
extraction rule and on a match store the whole field under the captured
code; on no match the table is unchanged. -/
def upd (t : List (String × String)) (E : String → Option String) (field : String) :
    List (String × String) :=
  match E field with
  | some code => dinsert t code field
  | none => t

/-- One iteration of the row loop of build_lookups: rows with fewer than
ten fields are skipped, otherwise fields 2 and 3 feed the airport table,
field 7 the airline table and field 8 the aircraft table. -/
def build_step (lk : Lookups) (row : List String) : Lookups :=
  if row.length < 10 then lk
  else
    { airports := upd (upd lk.airports extractAirport (row.getD 2 "")) extractAirport
        (row.getD 3 "")
      airlines := upd lk.airlines extractAirline (row.getD 7 "")
      aircraft := upd lk.aircraft extractAircraft (row.getD 8 "") }

/-- build_lookups of add_flight.py: scan all rows into the three tables. -/
def build_lookups (rows : List (List String)) : Lookups :=
  rows.foldl build_step ⟨[], [], []⟩

/-- The prompt loop of add_flight.py.  The list argument is the stream of
lines the user types; the first line is the answer to the field prompt and,
on the unknown-code path, the second line answers the full-string prompt.
none models an exhausted input stream (the source would block).  Each read
line is stripped; an empty stripped line at the field prompt repeats it. -/
def prompt (lookup : Option (List (String × String))) : List String → Option String
  | [] => none
  | v :: rest =>
    if pyStrip v = "" then prompt lookup rest
    else
      match lookup with
      | none => some (pyStrip v)
      | some lk =>
        match lookupT lk (pyUpper (pyStrip v)) with
        | some disp => some disp
        | none =>
          if pyContains (pyStrip v) '(' = true then some (pyStrip v)
          else
            match rest with
            | [] => none
            | fullRaw :: _ =>
              if pyStrip fullRaw = "" then some (pyStrip v) else some (pyStrip fullRaw)

/-- Rounding to four decimal places, the model of round(x, 4) and of the
four-decimal format used when a coordinate is written to the template.
Ties do not occur in any concrete value used below, so the half-up
convention here agrees with Python. -/
def round4 (q : ℚ) : ℚ :=
  ((⌊q * 10000 + 1 / 2⌋ : ℤ) : ℚ) / 10000

/-- Digit list to number, most significant first. -/
def digitsToNat (cs : List Char) : Nat :=
  cs.foldl (fun a c => a * 10 + (c.toNat - 48)) 0

/-- Unsigned part of a Python float literal: digits, optionally followed
by a point and digits, with at least one digit overall. -/
def pyFloatCore (cs : List Char) : Option ℚ :=
  match cs.dropWhile isDigit09 with
  | [] =>
    if (cs.takeWhile isDigit09).isEmpty then none
    else some ((digitsToNat (cs.takeWhile isDigit09) : ℚ))
  | '.' :: fr =>
    if fr.all isDigit09 && !((cs.takeWhile isDigit09).isEmpty && fr.isEmpty) then
      some ((digitsToNat (cs.takeWhile isDigit09) : ℚ) +
        (digitsToNat fr : ℚ) / (10 : ℚ) ^ fr.length)
    else none
  | _ => none

/-- Model of Python float(s) on the plain decimal literals relevant here:
an optional sign then pyFloatCore.  Exponent, infinity and nan forms are
omitted; none models the ValueError float raises on any other string. -/
def pyFloat (s : String) : Option ℚ :=
  match s.data with
  | '+' :: rest => pyFloatCore rest
  | '-' :: rest => (pyFloatCore rest).map (fun q => -q)
  | cs => pyFloatCore cs

/-- Model of add_coord_to_template at the level of the entry list embedded
in the template text.  The regex of the source looks for the last existing
entry before the closing brace of airportCoords, so it matches exactly when
the table already has at least one entry; on a match the new entry is
inserted right after the last one, with both coordinates written in
four-decimal format.  some is the True return, none the False one. -/
def add_coord_to_template (store : List (String × ℚ × ℚ)) (iata : String) (lat lng : ℚ) :
    Option (List (String × ℚ × ℚ)) :=
  if store.isEmpty then none
  else some (store ++ [(iata, (round4 lat, round4 lng))])

/-- Match of the looser airport pattern of ensure_airport_coords at the
head of the list: an opening parenthesis, three uppercase letters and a
slash. -/
def matchIataSlashAt : List Char → Option String
  | '(' :: a :: b :: c :: '/' :: _ =>
    if isUpperAZ a && isUpperAZ b && isUpperAZ c then some ⟨[a, b, c]⟩ else none
  | _ => none

/-- Leftmost match of the looser airport pattern. -/
def searchIataSlash : List Char → Option String
  | [] => none
  | l@(_ :: t) =>
    match matchIataSlashAt l with
    | some code => some code
    | none => searchIataSlash t

/-- The IATA extraction of ensure_airport_coords. -/
def extractIataSlash (s : String) : Option String :=
  searchIataSlash s.data

/-- The coordinate state touched by ensure_airport_coords: the in-memory
template_coords dict and the entry list persisted in the template file. -/
structure EnrichState where
  templateCoords : List (String × ℚ × ℚ)
  store : List (String × ℚ × ℚ)

/-- ensure_airport_coords of add_flight.py.  db is the read-only
airportsdata table; latResp and lngResp are the lines the user would type
at the two fallback prompts (consumed only on a database miss).  On a
database hit the raw coordinate pair is stored in the in-memory dict while
the template receives the four-decimal form; on a miss the responses are
stripped and, when both are non-empty, passed to float, whose ValueError
on a non-literal is modelled by none.  The unused existing_csv_airports
parameter of the source is omitted. -/
def ensure_airport_coords (db : String → Option (ℚ × ℚ)) (aptStr latResp lngResp : String)
    (st : EnrichState) : Option EnrichState :=
  match extractIataSlash aptStr with
  | none => some st
  | some iata =>
    if (lookupT st.templateCoords iata).isSome = true then some st
    else
      match db iata with
      | some p =>
        match add_coord_to_template st.store iata p.1 p.2 with
        | some store' => some ⟨dinsert st.templateCoords iata p, store'⟩
        | none => some st
      | none =>
        if pyStrip latResp ≠ "" ∧ pyStrip lngResp ≠ "" then
          match pyFloat (pyStrip latResp), pyFloat (pyStrip lngResp) with
          | some la, some lo =>
            match add_coord_to_template st.store iata la lo with
            | some store' => some ⟨dinsert st.templateCoords iata (la, lo), store'⟩
            | none => some st
          | _, _ => none
        else some st

/-- The files of add_flight.py: the flight-log CSV rows and the coordinate
state of the template. -/
structure FileState where
  csvRows : List (List String)
  enrich : EnrichState

/-- The tail of main in add_flight.py, from the confirmation prompt on.
ans is the line typed at the Append-this-flight prompt; row is the already
assembled new record; the four remaining strings answer the fallback
coordinate prompts of the two ensure_airport_coords calls.  The Bool is
true when the run ends in an uncaught exception; files reflect every write
performed before that point, since the CSV append precedes the coordinate
work. -/
def mainFinish (db : String → Option (ℚ × ℚ)) (ans : String) (row : List String)
    (fromApt toApt la1 lg1 la2 lg2 : String) (fs : FileState) : FileState × Bool :=
  if pyLower (pyStrip ans) ≠ "" ∧ pyLower (pyStrip ans) ≠ "y" then (fs, false)
  else
    let rows' := fs.csvRows ++ [row]
    match ensure_airport_coords db fromApt la1 lg1 fs.enrich with
    | none => (⟨rows', fs.enrich⟩, true)
    | some e1 =>
      match ensure_airport_coords db toApt la2 lg2 e1 with
      | none => (⟨rows', e1⟩, true)
      | some e2 => (⟨rows', e2⟩, false)

/-- extract_iata of migrate_csv_to_json.py: the airport capture, or the
empty string when the pattern is absent. -/
def extract_iata (s : String) : String :=
  (extractAirport s).getD ""

/-- The code-collection part of the migration loop: rows with fewer than
ten fields are skipped, every other row contributes the extracted origin
and destination codes. -/
def collectIataCodes (dataRows : List (List String)) : List String :=
  dataRows.foldl
    (fun acc row =>
      if row.length < 10 then acc
      else acc ++ [extract_iata (row.getD 2 ""), extract_iata (row.getD 3 "")])
    []

/-- Lexicographic strict order on character lists, by code point, the
order Python sorted uses on strings. -/
def lexLt : List Char → List Char → Bool
  | [], [] => false
  | [], _ :: _ => true
  | _ :: _, [] => false
  | a :: as, b :: bs => if a < b then true else if b < a then false else lexLt as bs

/-- Strict string order by code points. -/
def strLt (a b : String) : Bool :=
  lexLt a.data b.data

/-- Insertion into a strictly sorted list, dropping duplicates. -/
def insertSortedU (x : String) : List String → List String
  | [] => [x]
  | y :: t => if strLt x y = true then x :: y :: t else if x = y then y :: t else y :: insertSortedU x t

/-- Model of Python sorted(set(l)): the strictly increasing enumeration of
the distinct elements of l. -/
def sortedSet (l : List String) : List String :=
  l.foldr insertSortedU []

/-- One iteration of the airport-building loop of the migration: the empty
code is skipped, a database miss only warns, a hit stores the rounded
coordinate pair. -/
def migrateStep (db : String → Option (ℚ × ℚ)) (acc : List (String × ℚ × ℚ))
    (code : String) : List (String × ℚ × ℚ) :=
  if code = "" then acc
  else
    match db code with
    | some p => dinsert acc code (round4 p.1, round4 p.2)
    | none => acc

/-- The airports document the migration writes: the collected codes as a
sorted set, fed through the airport-building loop. -/
def migrateAirports (db : String → Option (ℚ × ℚ)) (dataRows : List (List String)) :
    List (String × ℚ × ℚ) :=
  (sortedSet (collectIataCodes dataRows)).foldl (migrateStep db) []

theorem lookupT_append {α : Type} {l : List (String × α)} {k : String} {v : α}
    (l₂ : List (String × α)) (h : lookupT l k = some v) :
    lookupT (l ++ l₂) k = some v := by
  induction l with
  | nil => simp [lookupT] at h
  | cons hd t ih =>
    obtain ⟨k', v'⟩ := hd
    by_cases hk : k' = k
    · simp [lookupT, hk] at h ⊢
      exact h
    · simp [lookupT, hk] at h ⊢
      exact ih h

theorem lookupT_eq_none_of_forall {α : Type} {l : List (String × α)} {k : String}
    (h : ∀ e ∈ l, e.1 ≠ k) : lookupT l k = none := by
  induction l with
  | nil => rfl
  | cons hd t ih =>
    have hhd : hd.1 ≠ k := h hd (by simp)
    obtain ⟨k', v'⟩ := hd
    simp only [lookupT, if_neg hhd]
    exact ih fun e he => h e (by simp [he])

theorem dinsert_eq_append {α : Type} {l : List (String × α)} {k : String} {v : α}
    (h : lookupT l k = none) : dinsert l k v = l ++ [(k, v)] := by
  induction l with
  | nil => rfl
  | cons hd t ih =>
    obtain ⟨k', v'⟩ := hd
    by_cases hk : k' = k
    · simp [lookupT, hk] at h
    · simp only [lookupT, if_neg hk] at h
      simp only [dinsert, if_neg hk, List.cons_append, ih h]

theorem mem_dinsert {α : Type} {l : List (String × α)} {k : String} {v : α}
    {e : String × α} (h : e ∈ dinsert l k v) : e = (k, v) ∨ e ∈ l := by
  induction l with
  | nil =>
    simp [dinsert] at h
    exact Or.inl h
  | cons hd t ih =>
    obtain ⟨k', v'⟩ := hd
    by_cases hk : k' = k
    · simp only [dinsert, if_pos hk, List.mem_cons] at h
      rcases h with h | h
      · exact Or.inl h
      · exact Or.inr (by simp [h])
    · simp only [dinsert, if_neg hk, List.mem_cons] at h
      rcases h with h | h
      · exact Or.inr (by simp [h])
      · rcases ih h with h | h
        · exact Or.inl h
        · exact Or.inr (by simp [h])

/-- C1 (amended): with a lookup table supplied, a non-empty input that
carries no surrounding whitespace and whose uppercased form is a key of
the table resolves to exactly the mapped display string, regardless of
what the rest of the input stream holds; in particular resolution is
case-insensitive on the input. -/
theorem prompt_resolves_known_code (lk : List (String × String)) (x d : String)
    (rest : List String) (h0 : x ≠ "") (h1 : pyStrip x = x)
    (h2 : lookupT lk (pyUpper x) = some d) :
    prompt (some lk) (x :: rest) = some d := by
  simp [prompt, h1, h0, h2]

theorem prompt_resolves_known_code_witness :
    prompt (some [("JFK", "New York / John F Kennedy (JFK/KJFK)")]) ["jfk"] =
      some "New York / John F Kennedy (JFK/KJFK)" :=
  prompt_resolves_known_code _ _ _ _ (by decide) (by decide) (by decide)

/-- C1 counterexample: the source strips the typed line before the table
lookup, so with a table whose key carries leading whitespace the claim
fails as stated: the input has a key of the table as its uppercased form,
yet the resolver falls through to the unknown-code path and returns the
stripped raw input, not the mapped display string. -/
theorem prompt_trims_before_lookup_cex :
    (" a" : String) ≠ "" ∧
    lookupT [(" A", "Display")] (pyUpper " a") = some "Display" ∧
    prompt (some [(" A", "Display")]) [" a", ""] = some "a" ∧
    ("a" : String) ≠ "Display" := by
  refine ⟨by decide, by decide, by decide, by decide⟩

/-- C7 (amended): when the lookup misses, a non-empty input that carries
no surrounding whitespace and contains an opening parenthesis is returned
unchanged, and resolution is idempotent on it: feeding the result back
through the resolver changes nothing. -/
theorem prompt_paren_fixed_point (lk : List (String × String)) (x : String)
    (rest : List String) (h0 : x ≠ "") (h1 : pyStrip x = x)
    (h2 : pyContains x '(' = true) (h3 : lookupT lk (pyUpper x) = none) :
    prompt (some lk) (x :: rest) = some x ∧
    (prompt (some lk) (x :: rest)).bind (fun y => prompt (some lk) [y]) =
      prompt (some lk) (x :: rest) := by
  have hmain : ∀ r : List String, prompt (some lk) (x :: r) = some x := by
    intro r
    simp [prompt, h1, h0, h2, h3]
  refine ⟨hmain rest, ?_⟩
  rw [hmain rest, Option.some_bind, hmain []]

theorem prompt_paren_fixed_point_witness :
    prompt (some [("UA", "United Airlines (UA/UAL)")])
        ["Rome / Fiumicino (FCO/LIRF)", "zzz"] = some "Rome / Fiumicino (FCO/LIRF)" ∧
    (prompt (some [("UA", "United Airlines (UA/UAL)")])
        ["Rome / Fiumicino (FCO/LIRF)", "zzz"]).bind
      (fun y => prompt (some [("UA", "United Airlines (UA/UAL)")]) [y]) =
      prompt (some [("UA", "United Airlines (UA/UAL)")])
        ["Rome / Fiumicino (FCO/LIRF)", "zzz"] :=
  prompt_paren_fixed_point _ _ _ (by decide) (by decide) (by decide) (by decide)

/-- C7 counterexample: the typed line is stripped before any check, so an
input with an opening parenthesis but leading whitespace is not returned
verbatim even though the lookup misses. -/
theorem prompt_paren_trimmed_cex :
    (" (x)" : String) ≠ "" ∧ pyContains " (x)" '(' = true ∧
    prompt (some []) [" (x)"] = some "(x)" ∧ ("(x)" : String) ≠ " (x)" := by
  refine ⟨by decide, by decide, by decide, by decide⟩

/-- C6: an explicit decline at the confirmation prompt, a reply that is
non-empty and different from the letter y after stripping and lowering,
performs no write at all: the CSV rows and the coordinate state are
returned exactly as loaded and no exception is raised. -/
theorem decline_leaves_files_unchanged (db : String → Option (ℚ × ℚ)) (ans : String)
    (row : List String) (fromApt toApt la1 lg1 la2 lg2 : String) (fs : FileState)
    (h1 : pyLower (pyStrip ans) ≠ "") (h2 : pyLower (pyStrip ans) ≠ "y") :
    mainFinish db ans row fromApt toApt la1 lg1 la2 lg2 fs = (fs, false) := by
  unfold mainFinish
  rw [if_pos ⟨h1, h2⟩]

theorem decline_leaves_files_unchanged_witness :
    mainFinish (fun _ => none) "n" ["r"] "" "" "" "" "" "" ⟨[["old"]], ⟨[], []⟩⟩ =
      (⟨[["old"]], ⟨[], []⟩⟩, false) :=
  decline_leaves_files_unchanged _ _ _ _ _ _ _ _ _ _ (by decide) (by decide)

/-- C9 (amended): the confirmation reply is stripped and lowercased; the
new row is appended exactly when the result is empty or the letter y, and
every other reply cancels.  A reply of only whitespace therefore counts
as consent, like pressing Enter. -/
theorem confirm_append_characterization (db : String → Option (ℚ × ℚ)) (ans : String)
    (row : List String) (fromApt toApt la1 lg1 la2 lg2 : String) (fs : FileState) :
    (mainFinish db ans row fromApt toApt la1 lg1 la2 lg2 fs).1.csvRows =
      if pyLower (pyStrip ans) = "" ∨ pyLower (pyStrip ans) = "y" then fs.csvRows ++ [row]
      else fs.csvRows := by
  unfold mainFinish
  by_cases hc : pyLower (pyStrip ans) = "" ∨ pyLower (pyStrip ans) = "y"
  · have hC : ¬(pyLower (pyStrip ans) ≠ "" ∧ pyLower (pyStrip ans) ≠ "y") := by
      rcases hc with h | h <;> simp [h]
    rw [if_neg hC, if_pos hc]
    rcases hE1 : ensure_airport_coords db fromApt la1 lg1 fs.enrich with _ | e1
    · simp [hE1]
    · rcases hE2 : ensure_airport_coords db toApt la2 lg2 e1 with _ | e2 <;> simp [hE1, hE2]
  · have hC : pyLower (pyStrip ans) ≠ "" ∧ pyLower (pyStrip ans) ≠ "y" := by
      push_neg at hc
      exact hc
    rw [if_pos hC, if_neg hc]

/-- C9 counterexample: a reply of a single space is a non-empty input that
is neither y nor Y, yet the append proceeds, because the source strips the
reply before comparing. -/
theorem confirm_whitespace_proceeds_cex :
    ((" " : String) ≠ "" ∧ (" " : String) ≠ "y" ∧ (" " : String) ≠ "Y") ∧
    mainFinish (fun _ => none) " " ["r"] "" "" "" "" "" "" ⟨[], ⟨[], []⟩⟩ =
      (⟨[["r"]], ⟨[], []⟩⟩, false) :=
  ⟨by decide, rfl⟩

theorem ensure_result_cases {db : String → Option (ℚ × ℚ)} {apt la lg : String}
    {st st' : EnrichState}
    (h : ensure_airport_coords db apt la lg st = some st') :
    st' = st ∨ ∃ iata p, lookupT st.templateCoords iata = none ∧
      st'.templateCoords = st.templateCoords ++ [(iata, p)] ∧
      st'.store = st.store ++ [(iata, (round4 p.1, round4 p.2))] := by
  unfold ensure_airport_coords at h
  split at h
  · exact Or.inl (Option.some.inj h).symm
  · rename_i iata hE
    split at h
    · exact Or.inl (Option.some.inj h).symm
    · rename_i hP
      have hPn : lookupT st.templateCoords iata = none := by
        rcases hL : lookupT st.templateCoords iata with _ | v
        · rfl
        · rw [hL] at hP
          simp at hP
      split at h
      · rename_i p hD
        unfold add_coord_to_template at h
        split at h
        · rename_i store' hA
          split at hA
          · exact absurd hA (by simp)
          · have hst : st' = ⟨dinsert st.templateCoords iata p, store'⟩ :=
              (Option.some.inj h).symm
            refine Or.inr ⟨iata, p, hPn, ?_, ?_⟩
            · rw [hst]
              exact dinsert_eq_append hPn
            · rw [hst]
              exact (Option.some.inj hA).symm
        · exact Or.inl (Option.some.inj h).symm
      · rename_i hD
        split at h
        · split at h
          · rename_i la' lo' hF1 hF2
            unfold add_coord_to_template at h
            split at h
            · rename_i store' hA
              split at hA
              · exact absurd hA (by simp)
              · have hst : st' = ⟨dinsert st.templateCoords iata (la', lo'), store'⟩ :=
                  (Option.some.inj h).symm
                refine Or.inr ⟨iata, (la', lo'), hPn, ?_, ?_⟩
                · rw [hst]
                  exact dinsert_eq_append hPn
                · rw [hst]
                  exact (Option.some.inj hA).symm
            · exact Or.inl (Option.some.inj h).symm
          · rename_i hF
            exact absurd h (by simp)
        · exact Or.inl (Option.some.inj h).symm

/-- C2: ensure_airport_coords never removes or replaces an entry of the
in-memory coordinate table nor of the persisted store, and when the
extracted code is already a key of the in-memory table it returns with
both left exactly as loaded. -/
theorem ensure_preserves_existing_coords (db : String → Option (ℚ × ℚ))
    (apt latResp lngResp : String) (st st' : EnrichState) :
    (ensure_airport_coords db apt latResp lngResp st = some st' →
      (∀ k v, lookupT st.templateCoords k = some v → lookupT st'.templateCoords k = some v) ∧
      (∀ k v, lookupT st.store k = some v → lookupT st'.store k = some v)) ∧
    (∀ iata, extractIataSlash apt = some iata →
      (lookupT st.templateCoords iata).isSome = true →
      ensure_airport_coords db apt latResp lngResp st = some st) := by
  constructor
  · intro h
    rcases ensure_result_cases h with h | ⟨iata, p, hPn, hT, hS⟩
    · subst h
      exact ⟨fun k v hv => hv, fun k v hv => hv⟩
    · constructor
      · intro k v hv
        rw [hT]
        exact lookupT_append _ hv
      · intro k v hv
        rw [hS]
        exact lookupT_append _ hv
  · intro iata hE hP
    simp [ensure_airport_coords, hE, hP]

theorem ensure_preserves_existing_coords_witness :
    ensure_airport_coords (fun _ => none) "(ZZZ/" "" ""
        ⟨[("ZZZ", (1, 2))], [("ZZZ", (1, 2))]⟩ =
      some ⟨[("ZZZ", (1, 2))], [("ZZZ", (1, 2))]⟩ :=
  (ensure_preserves_existing_coords _ _ _ _ _ ⟨[], []⟩).2 "ZZZ" (by decide) (by decide)

/-- C3 (amended): ensure_airport_coords terminates normally whenever each
fallback response is empty or a decimal float literal after stripping, and
a manually entered pair is inserted only when both are supplied and parse;
but a non-empty response that is not a float literal makes the float call
raise ValueError, so the step is not total over all responses. -/
theorem ensure_total_on_parsable_responses (db : String → Option (ℚ × ℚ))
    (apt latResp lngResp : String) (st : EnrichState)
    (h1 : pyStrip latResp = "" ∨ (pyFloat (pyStrip latResp)).isSome = true)
    (h2 : pyStrip lngResp = "" ∨ (pyFloat (pyStrip lngResp)).isSome = true) :
    (ensure_airport_coords db apt latResp lngResp st).isSome = true := by
  unfold ensure_airport_coords
  split
  · rfl
  · rename_i iata hE
    split
    · rfl
    · split
      · rename_i p hD
        unfold add_coord_to_template
        split
        · rename_i store' hA
          rfl
        · rfl
      · rename_i hD
        split
        · rename_i hne
          rcases h1 with h1 | h1
          · exact absurd h1 hne.1
          rcases h2 with h2 | h2
          · exact absurd h2 hne.2
          rcases hF1 : pyFloat (pyStrip latResp) with _ | la
          · rw [hF1] at h1
            cases h1
          rcases hF2 : pyFloat (pyStrip lngResp) with _ | lo
          · rw [hF2] at h2
            cases h2
          have hall : ∀ o : Option (List (String × ℚ × ℚ)),
              (match o with
                | some store' =>
                  some (⟨dinsert st.templateCoords iata (la, lo), store'⟩ : EnrichState)
                | none => some st).isSome = true := by
            intro o
            cases o <;> rfl
          exact hall _
        · rfl

theorem ensure_total_on_parsable_responses_witness :
    (ensure_airport_coords (fun _ => none) "(ABC/" "1.5" "" ⟨[], []⟩).isSome = true :=
  ensure_total_on_parsable_responses _ _ _ _ _ (Or.inr (by decide)) (Or.inl (by decide))

/-- C3 counterexample: on a database miss with the non-numeric latitude
response abc and longitude response 1, the source reaches
float with a non-literal and raises ValueError, modelled by none; the step
does not terminate normally, contradicting the claimed totality. -/
theorem ensure_raises_on_nonnumeric_cex :
    ensure_airport_coords (fun _ => none) "(ABC/" "abc" "1" ⟨[], []⟩ = none := rfl

theorem migrate_fold_mem {db : String → Option (ℚ × ℚ)} :
    ∀ (codes : List String) (acc : List (String × ℚ × ℚ)),
      (∀ e ∈ acc, e.1 ≠ "" ∧ ∃ a b, db e.1 = some (a, b) ∧ e.2 = (round4 a, round4 b)) →
      ∀ e ∈ codes.foldl (migrateStep db) acc,
        e.1 ≠ "" ∧ ∃ a b, db e.1 = some (a, b) ∧ e.2 = (round4 a, round4 b) := by
  intro codes
  induction codes with
  | nil =>
    intro acc hacc e he
    exact hacc e he
  | cons c cs ih =>
    intro acc hacc e he
    rw [List.foldl_cons] at he
    refine ih _ ?_ e he
    intro e' he'
    unfold migrateStep at he'
    split at he'
    · exact hacc e' he'
    · rename_i hc
      split at he'
      · rename_i p hD
        rcases mem_dinsert he' with h | h
        · subst h
          exact ⟨hc, p.1, p.2, by rw [hD], rfl⟩
        · exact hacc e' h
      · exact hacc e' he'

/-- C4 (amended): values persisted to the coordinate store are always the
four-decimal roundings, in the template written by add_flight.py as in the
JSON document written by the migration, and the migration also rounds the
values of its in-memory table; but on a database hit add_flight.py puts
the raw unrounded pair into its in-memory coordinate table. -/
theorem coord_values_rounded_on_persist (db : String → Option (ℚ × ℚ))
    (apt latResp lngResp : String) (st : EnrichState) (iata : String) (la lo : ℚ)
    (hE : extractIataSlash apt = some iata)
    (hP : lookupT st.templateCoords iata = none)
    (hD : db iata = some (la, lo))
    (hS : st.store.isEmpty = false) :
    ensure_airport_coords db apt latResp lngResp st =
      some ⟨st.templateCoords ++ [(iata, (la, lo))],
        st.store ++ [(iata, (round4 la, round4 lo))]⟩ ∧
    ∀ (rows : List (List String)) (e : String × ℚ × ℚ),
      e ∈ migrateAirports db rows →
      ∃ a b, db e.1 = some (a, b) ∧ e.2 = (round4 a, round4 b) := by
  constructor
  · simp [ensure_airport_coords, hE, hP, hD, add_coord_to_template, hS,
      dinsert_eq_append hP]
  · intro rows e he
    exact (migrate_fold_mem _ [] (fun e' he' => absurd he' (List.not_mem_nil e')) e he).2

theorem coord_values_rounded_on_persist_witness :
    ensure_airport_coords (fun k => if k = "AAA" then some ((5 : ℚ), (6 : ℚ)) else none)
        "(AAA/" "" "" ⟨[("ZZZ", (1, 2))], [("ZZZ", (1, 2))]⟩ =
      some ⟨[("ZZZ", (1, 2)), ("AAA", (5, 6))],
        [("ZZZ", (1, 2)), ("AAA", (round4 5, round4 6))]⟩ :=
  (coord_values_rounded_on_persist
    (fun k => if k = "AAA" then some ((5 : ℚ), (6 : ℚ)) else none)
    "(AAA/" "" "" ⟨[("ZZZ", (1, 2))], [("ZZZ", (1, 2))]⟩ "AAA" 5 6 rfl rfl rfl rfl).1

/-- C4 counterexample: on a database hit with latitude 0.12345 the value
inserted into the in-memory coordinate table is the raw 0.12345, which is
not equal to its own four-decimal rounding, so the claim that the
in-memory insertions are rounded fails on add_flight.py. -/
theorem ensure_inmemory_unrounded_cex :
    ensure_airport_coords
        (fun k => if k = "AAA" then some ((12345 : ℚ) / 100000, 0) else none)
        "(AAA/" "" "" ⟨[("ZZZ", (1, 2))], [("ZZZ", (1, 2))]⟩ =
      some ⟨[("ZZZ", (1, 2)), ("AAA", ((12345 : ℚ) / 100000, 0))],
        [("ZZZ", (1, 2)), ("AAA", (round4 ((12345 : ℚ) / 100000), round4 0))]⟩ ∧
    round4 ((12345 : ℚ) / 100000) ≠ (12345 : ℚ) / 100000 := by
  constructor
  · rfl
  · unfold round4
    norm_num

/-- C10: every entry of the airports document written by the migration has
a non-empty key that is present in the external airport database: rows
whose origin or destination fails IATA extraction contribute the empty
code, which the loop filters out, and database misses are skipped. -/
theorem migrate_airports_keys_valid (db : String → Option (ℚ × ℚ))
    (rows : List (List String)) (e : String × ℚ × ℚ)
    (h : e ∈ migrateAirports db rows) :
    e.1 ≠ "" ∧ (db e.1).isSome = true := by
  have hm := migrate_fold_mem (sortedSet (collectIataCodes rows)) []
    (fun e' he' => absurd he' (List.not_mem_nil e')) e h
  refine ⟨hm.1, ?_⟩
  rcases hm.2 with ⟨a, b, hab, _⟩
  rw [hab]
  rfl

theorem migrate_airports_keys_valid_witness :
    ("JFK" : String) ≠ "" ∧
      ((fun k => if k = "JFK" then some ((1 : ℚ), (2 : ℚ)) else none) "JFK").isSome = true :=
  migrate_airports_keys_valid (fun k => if k = "JFK" then some ((1 : ℚ), (2 : ℚ)) else none)
    [["d", "f", "X (JFK/KJFK)", "nomatch", "", "", "", "a", "b", "r"]]
    ("JFK", (round4 1, round4 2)) (List.Mem.head _)

theorem lexLt_irrefl : ∀ cs : List Char, lexLt cs cs = false := by
  intro cs
  induction cs with
  | nil => rfl
  | cons c t ih => simp [lexLt, lt_self_iff_false, ih]

theorem lexLt_trans :
    ∀ as bs cs : List Char, lexLt as bs = true → lexLt bs cs = true → lexLt as cs = true := by
  intro as
  induction as with
  | nil =>
    intro bs cs h1 h2
    cases bs with
    | nil => simp [lexLt] at h1
    | cons b bt =>
      cases cs with
      | nil => simp [lexLt] at h2
      | cons c ct => rfl
  | cons a at' ih =>
    intro bs cs h1 h2
    cases bs with
    | nil => simp [lexLt] at h1
    | cons b bt =>
      cases cs with
      | nil => simp [lexLt] at h2
      | cons c ct =>
        simp only [lexLt] at h1 h2 ⊢
        rcases lt_trichotomy a b with hab | hab | hab
        · rcases lt_trichotomy b c with hbc | hbc | hbc
          · rw [if_pos (lt_trans hab hbc)]
          · subst hbc
            rw [if_pos hab]
          · rw [if_neg (asymm hbc), if_pos hbc] at h2
            cases h2
        · subst hab
          rw [if_neg (lt_irrefl a), if_neg (lt_irrefl a)] at h1
          rcases lt_trichotomy a c with hac | hac | hac
          · rw [if_pos hac]
          · subst hac
            rw [if_neg (lt_irrefl a), if_neg (lt_irrefl a)] at h2 ⊢
            exact ih bt ct h1 h2
          · rw [if_neg (asymm hac), if_pos hac] at h2
            cases h2
        · rw [if_neg (asymm hab), if_pos hab] at h1
          cases h1

theorem lexLt_connect :
    ∀ as bs : List Char, lexLt as bs = false → lexLt bs as = false → as = bs := by
  intro as
  induction as with
  | nil =>
    intro bs h1 h2
    cases bs with
    | nil => rfl
    | cons b bt => simp [lexLt] at h1
  | cons a at' ih =>
    intro bs h1 h2
    cases bs with
    | nil => simp [lexLt] at h2
    | cons b bt =>
      simp only [lexLt] at h1 h2
      rcases lt_trichotomy a b with hab | hab | hab
      · rw [if_pos hab] at h1
        cases h1
      · subst hab
        rw [if_neg (lt_irrefl a), if_neg (lt_irrefl a)] at h1 h2
        rw [ih bt h1 h2]
      · rw [if_pos hab] at h2
        cases h2

theorem strLt_trans {a b c : String} (h1 : strLt a b = true) (h2 : strLt b c = true) :
    strLt a c = true :=
  lexLt_trans _ _ _ h1 h2

theorem strLt_irrefl (a : String) : strLt a a = false :=
  lexLt_irrefl _

theorem strLt_connect {a b : String} (h1 : strLt a b = false) (h2 : strLt b a = false) :
    a = b := by
  have hd := lexLt_connect a.data b.data h1 h2
  cases a
  cases b
  exact congrArg String.mk hd

theorem mem_insertSortedU {x a : String} :
    ∀ l : List String, a ∈ insertSortedU x l → a = x ∨ a ∈ l := by
  intro l
  induction l with
  | nil =>
    intro h
    simp [insertSortedU] at h
    exact Or.inl h
  | cons y t ih =>
    intro h
    simp only [insertSortedU] at h
    split at h
    · rcases List.mem_cons.mp h with h | h
      · exact Or.inl h
      · exact Or.inr h
    · split at h
      · exact Or.inr h
      · rcases List.mem_cons.mp h with h | h
        · exact Or.inr (by simp [h])
        · rcases ih h with h | h
          · exact Or.inl h
          · exact Or.inr (by simp [h])

theorem pairwise_insertSortedU {x : String} :
    ∀ l : List String, l.Pairwise (fun a b => strLt a b = true) →
      (insertSortedU x l).Pairwise (fun a b => strLt a b = true) := by
  intro l
  induction l with
  | nil =>
    intro _
    simp [insertSortedU]
  | cons y t ih =>
    intro hp
    rcases List.pairwise_cons.mp hp with ⟨hy, ht⟩
    simp only [insertSortedU]
    split
    · rename_i hxy
      refine List.Pairwise.cons ?_ hp
      intro b hb
      rcases List.mem_cons.mp hb with hb | hb
      · subst hb
        exact hxy
      · exact strLt_trans hxy (hy b hb)
    · split
      · exact hp
      · rename_i hxy hne
        have hxy' : strLt x y = false := by
          cases hv : strLt x y
          · rfl
          · exact absurd hv hxy
        have hyx : strLt y x = true := by
          cases hv : strLt y x
          · exact absurd (strLt_connect hxy' hv) hne
          · rfl
        refine List.Pairwise.cons ?_ (ih ht)
        intro b hb
        rcases mem_insertSortedU _ hb with hb | hb
        · subst hb
          exact hyx
        · exact hy b hb

theorem pairwise_sortedSet (l : List String) :
    (sortedSet l).Pairwise (fun a b => strLt a b = true) := by
  induction l with
  | nil => exact List.Pairwise.nil
  | cons x t ih => exact pairwise_insertSortedU _ ih

theorem migrate_fold_keys_sorted {db : String → Option (ℚ × ℚ)} :
    ∀ (codes : List String) (acc : List (String × ℚ × ℚ)),
      ((acc.map Prod.fst) ++ codes).Pairwise (fun a b => strLt a b = true) →
      ((codes.foldl (migrateStep db) acc).map Prod.fst).Pairwise
        (fun a b => strLt a b = true) := by
  intro codes
  induction codes with
  | nil =>
    intro acc h
    simpa using h
  | cons c cs ih =>
    intro acc h
    rw [List.foldl_cons]
    have hsub : ((acc.map Prod.fst) ++ cs).Sublist ((acc.map Prod.fst) ++ c :: cs) :=
      List.Sublist.append_left (List.sublist_cons_self c cs) _
    unfold migrateStep
    split
    · exact ih acc (h.sublist hsub)
    · rename_i hc
      split
      · rename_i p hD
        have hforall := (List.pairwise_append.mp h).2.2
        have hnotin : ∀ e ∈ acc, e.1 ≠ c := by
          intro e he heq
          have hlt := hforall e.1 (List.mem_map_of_mem Prod.fst he) c (List.mem_cons_self c cs)
          rw [heq, strLt_irrefl] at hlt
          cases hlt
        rw [dinsert_eq_append (lookupT_eq_none_of_forall hnotin)]
        refine ih _ ?_
        rw [List.map_append, List.append_assoc]
        simpa using h
      · exact ih acc (h.sublist hsub)

/-- C5 (amended): the airports document written by the migration lists its
keys in strictly increasing lexicographic order; the template store of
add_flight.py is instead extended by appending after the last existing
entry, so its key order after an addition is the prior order followed by
the new codes and need not be sorted. -/
theorem migrate_store_keys_sorted (db : String → Option (ℚ × ℚ))
    (rows : List (List String)) :
    ((migrateAirports db rows).map Prod.fst).Pairwise (fun a b => strLt a b = true) := by
  unfold migrateAirports
  exact migrate_fold_keys_sorted _ []
    (by simpa using pairwise_sortedSet (collectIataCodes rows))

/-- C5 counterexample: a run of add_flight.py whose enricher adds the new
code AAA to a store holding only ZZZ leaves the persisted entries in the
order ZZZ, AAA, which is not sorted lexicographically. -/
theorem ensure_store_append_unsorted_cex :
    (ensure_airport_coords (fun k => if k = "AAA" then some ((1 : ℚ), (1 : ℚ)) else none)
        "(AAA/" "" "" ⟨[("ZZZ", (1, 2))], [("ZZZ", (1, 2))]⟩).map
      (fun st => st.store.map Prod.fst) = some ["ZZZ", "AAA"] ∧
    ¬ List.Pairwise (fun a b => strLt a b = true) ["ZZZ", "AAA"] := by
  refine ⟨rfl, ?_⟩
  intro hp
  have hlt := List.rel_of_pairwise_cons hp (List.mem_singleton_self "AAA")
  exact absurd hlt (by decide)

theorem tableOK_dinsert {E : String → Option String} {t : List (String × String)}
    {k v : String} (h : ∀ p ∈ t, E p.2 = some p.1) (hkv : E v = some k) :
    ∀ p ∈ dinsert t k v, E p.2 = some p.1 := by
  intro p hp
  rcases mem_dinsert hp with hp | hp
  · subst hp
    exact hkv
  · exact h p hp

theorem tableOK_upd {E : String → Option String} {t : List (String × String)}
    {field : String} (h : ∀ p ∈ t, E p.2 = some p.1) :
    ∀ p ∈ upd t E field, E p.2 = some p.1 := by
  unfold upd
  split
  · rename_i code hE
    exact tableOK_dinsert h hE
  · exact h

theorem build_fold_ok :
    ∀ (rows : List (List String)) (acc : Lookups),
      (∀ p ∈ acc.airports, extractAirport p.2 = some p.1) →
      (∀ p ∈ acc.airlines, extractAirline p.2 = some p.1) →
      (∀ p ∈ acc.aircraft, extractAircraft p.2 = some p.1) →
      (∀ p ∈ (rows.foldl build_step acc).airports, extractAirport p.2 = some p.1) ∧
      (∀ p ∈ (rows.foldl build_step acc).airlines, extractAirline p.2 = some p.1) ∧
      (∀ p ∈ (rows.foldl build_step acc).aircraft, extractAircraft p.2 = some p.1) := by
  intro rows
  induction rows with
  | nil =>
    intro acc h1 h2 h3
    exact ⟨h1, h2, h3⟩
  | cons r rs ih =>
    intro acc h1 h2 h3
    rw [List.foldl_cons]
    refine ih _ ?_ ?_ ?_
    · unfold build_step
      split
      · exact h1
      · exact tableOK_upd (tableOK_upd h1)
    · unfold build_step
      split
      · exact h2
      · exact tableOK_upd h2
    · unfold build_step
      split
      · exact h3
      · exact tableOK_upd h3

/-- C8: every entry of each of the three tables built by build_lookups
satisfies the round-trip property: the corresponding extraction rule,
applied to the stored display string, recovers exactly the stored code. -/
theorem build_lookups_roundtrip (rows : List (List String)) :
    (∀ p ∈ (build_lookups rows).airports, extractAirport p.2 = some p.1) ∧
    (∀ p ∈ (build_lookups rows).airlines, extractAirline p.2 = some p.1) ∧
    (∀ p ∈ (build_lookups rows).aircraft, extractAircraft p.2 = some p.1) :=
  build_fold_ok rows ⟨[], [], []⟩ (fun p hp => absurd hp (List.not_mem_nil p))
    (fun p hp => absurd hp (List.not_mem_nil p)) (fun p hp => absurd hp (List.not_mem_nil p))

theorem build_lookups_roundtrip_witness :
    extractAirport "A (JFK/KJFK)" = some "JFK" :=
  (build_lookups_roundtrip
      [["", "", "A (JFK/KJFK)", "B (SFO/KSFO)", "", "", "", "C (UA/UAL)", "D (B738)", ""]]).1
    ("JFK", "A (JFK/KJFK)") (by decide)
